import Mathlib

set_option linter.unusedVariables false

/-! Shallow embedding of src/server.js (agenda-app): an Express task/category
CRUD service over a single JSON file. Request bodies carry JavaScript values,
modelled by `JValue`; the persisted document is modelled at two levels: the
raw JSON level (`Json`, for the loader `readData`) and the typed level
(`Document`, for the CRUD operations). -/

/-- JavaScript primitive values as they appear in JSON request bodies.
`undef` stands for an absent body field. Arrays and objects in scalar field
positions are not modelled; no code path relevant to the claims stores one. -/
inductive JValue where
  | undef
  | null
  | bool (b : Bool)
  | num (n : Int)
  | str (s : String)
deriving DecidableEq, Repr

/-- JavaScript truthiness for the modelled values: the source's `!x` is
`!truthy x`. -/
def truthy : JValue → Bool
  | .undef => false
  | .null => false
  | .bool b => b
  | .num n => decide (n ≠ 0)
  | .str s => decide (s ≠ "")

/-- JavaScript ToString on the modelled values, as applied by the implicit
coercion in `RegExp.prototype.test`. -/
def jsToString : JValue → String
  | .undef => "undefined"
  | .null => "null"
  | .bool true => "true"
  | .bool false => "false"
  | .num n => toString n
  | .str s => s

/-- The double-quote character, written by code point. -/
def quoteChar : Char := Char.ofNat 34

/-- The apostrophe character, written by code point. -/
def aposChar : Char := Char.ofNat 39

/-- One global single-character `String.prototype.replace`: every occurrence
of `c` is replaced by the character list `rep`. -/
def replaceChar (c : Char) (rep : List Char) : List Char → List Char
  | [] => []
  | x :: xs => if x = c then rep ++ replaceChar c rep xs else x :: replaceChar c rep xs

/-- Whitespace removed by `String.prototype.trim` (the common subset; the
exact set is immaterial to the claims, since trimming only drops characters
and none of the sanitized characters is whitespace). -/
def isJsWhitespace (c : Char) : Bool :=
  c == ' ' || c == '\t' || c == '\n' || c == '\r' ||
  c == Char.ofNat 11 || c == Char.ofNat 12 || c == Char.ofNat 160

/-- Drop leading and trailing whitespace, as `String.prototype.trim`. -/
def trimChars (l : List Char) : List Char :=
  ((l.dropWhile isJsWhitespace).reverse.dropWhile isJsWhitespace).reverse

/-- Source `sanitizeInput` applied to an actual string: the five chained
global replaces, in source order angle brackets, double quote, apostrophe,
slash mapped to their HTML entities, followed by `.trim()`. -/
def sanitizeStr (s : String) : String :=
  String.mk (trimChars
    (replaceChar '/' "&#x2F;".data
      (replaceChar aposChar "&#x27;".data
        (replaceChar quoteChar "&quot;".data
          (replaceChar '>' "&gt;".data
            (replaceChar '<' "&lt;".data s.data))))))

/-- Source `sanitizeInput`: non-string inputs map to the empty string. -/
def sanitizeInput : JValue → String
  | .str s => sanitizeStr s
  | _ => ""

/-- The stored value contains none of the five sanitized characters
literally. -/
def noSpecials (s : String) : Prop :=
  '<' ∉ s.data ∧ '>' ∉ s.data ∧ quoteChar ∉ s.data ∧ aposChar ∉ s.data ∧ '/' ∉ s.data

instance (s : String) : Decidable (noSpecials s) := by
  unfold noSpecials
  infer_instance

/-- Decimal digit test for the regex models. -/
def isDigitChar (c : Char) : Bool := '0' ≤ c && c ≤ '9'

/-- Source date check: the test of the anchored regex matching four digits,
a hyphen, two digits, a hyphen, two digits. -/
def fechaRegexTest (s : String) : Bool :=
  match s.data with
  | [y1, y2, y3, y4, d1, m1, m2, d2, a1, a2] =>
      isDigitChar y1 && isDigitChar y2 && isDigitChar y3 && isDigitChar y4 &&
      d1 == '-' && isDigitChar m1 && isDigitChar m2 && d2 == '-' &&
      isDigitChar a1 && isDigitChar a2
  | _ => false

/-- Source time check: the anchored regex whose hour part is one digit, or
zero/one followed by a digit, or two followed by zero..three, then a colon,
then minutes zero..five and a digit. -/
def horaRegexTest (s : String) : Bool :=
  match s.data with
  | [h1, c, m1, m2] =>
      c == ':' && isDigitChar h1 && ('0' ≤ m1 && m1 ≤ '5') && isDigitChar m2
  | [h1, h2, c, m1, m2] =>
      c == ':' &&
      ((h1 == '0' || h1 == '1') && isDigitChar h2 ||
        h1 == '2' && ('0' ≤ h2 && h2 ≤ '3')) &&
      ('0' ≤ m1 && m1 ≤ '5') && isDigitChar m2
  | _ => false

/-- A stored task record (Spanish field names as on the wire and on disk).
`titulo` is always a string in code-produced documents, both writers pass it
through `sanitizeInput`; the fields set verbatim from the body keep type
`JValue`. `fechaActualizacion` is absent until the first update. -/
structure Tarea where
  id : Int
  titulo : String
  fecha : JValue
  hora : JValue
  categoriaId : JValue
  completada : JValue
  fechaCreacion : String
  fechaActualizacion : Option String
deriving DecidableEq, Repr

/-- A stored category record. -/
structure Categoria where
  id : Int
  nombre : String
  color : JValue
  fechaCreacion : String
  fechaActualizacion : Option String
deriving DecidableEq, Repr

/-- The typed persisted document: the two sequences. -/
structure Document where
  tareas : List Tarea
  categorias : List Categoria
deriving DecidableEq, Repr

/-- The document with both sequences empty. -/
def emptyDoc : Document := ⟨[], []⟩

/-- The error outcomes an operation can signal before any save happens
(HTTP 400 and 404 respectively, with the source's Spanish messages). -/
inductive ApiErr where
  | badRequest (msg : String)
  | notFound (msg : String)
deriving DecidableEq, Repr

/-- Body of POST tareas: the four destructured fields (absent = `undef`). -/
structure TareaBody where
  titulo : JValue
  fecha : JValue
  hora : JValue
  categoriaId : JValue
deriving DecidableEq, Repr

/-- Body of PUT tareas: the five destructured fields (absent = `undef`). -/
structure TareaUpdateBody where
  titulo : JValue
  fecha : JValue
  hora : JValue
  completada : JValue
  categoriaId : JValue
deriving DecidableEq, Repr

/-- Body of POST and PUT categorias (absent = `undef`). -/
structure CategoriaBody where
  nombre : JValue
  color : JValue
deriving DecidableEq, Repr

/-- The ids field of DELETE tareas: absent, present but not an array, or an
array of values. -/
inductive IdsBody where
  | missing
  | nonArray (v : JValue)
  | arr (xs : List JValue)
deriving DecidableEq, Repr

/-- POST tareas handler body: required-field check, date shape check, time
shape check, then build the record (title sanitized, categoriaId defaulted to
null when falsy, completada false) and append it. `now` is the millisecond
clock (`Date.now()`), `nowIso` the ISO timestamp string. -/
def createTask (doc : Document) (body : TareaBody) (now : Int) (nowIso : String) :
    Except ApiErr (Document × Tarea) :=
  if !truthy body.titulo || !truthy body.fecha || !truthy body.hora then
    .error (.badRequest "Faltan campos requeridos: titulo, fecha, hora")
  else if !fechaRegexTest (jsToString body.fecha) then
    .error (.badRequest "Formato de fecha inválido. Use YYYY-MM-DD")
  else if !horaRegexTest (jsToString body.hora) then
    .error (.badRequest "Formato de hora inválido. Use HH:MM")
  else
    let nuevaTarea : Tarea :=
      { id := now
        titulo := sanitizeInput body.titulo
        fecha := body.fecha
        hora := body.hora
        categoriaId := if truthy body.categoriaId then body.categoriaId else .null
        completada := .bool false
        fechaCreacion := nowIso
        fechaActualizacion := none }
    .ok ({ doc with tareas := doc.tareas ++ [nuevaTarea] }, nuevaTarea)

/-- The per-field assignments of the PUT tareas handler: each field present in
the body (not `undef`) overwrites the stored one, title through
`sanitizeInput`, the others verbatim; `fechaActualizacion` is stamped. -/
def applyTareaUpdate (body : TareaUpdateBody) (nowIso : String) (t : Tarea) : Tarea :=
  { t with
    titulo := if body.titulo ≠ .undef then sanitizeInput body.titulo else t.titulo
    fecha := if body.fecha ≠ .undef then body.fecha else t.fecha
    hora := if body.hora ≠ .undef then body.hora else t.hora
    completada := if body.completada ≠ .undef then body.completada else t.completada
    categoriaId := if body.categoriaId ≠ .undef then body.categoriaId else t.categoriaId
    fechaActualizacion := some nowIso }

/-- `findIndex` on id followed by in-place assignment: rewrites the first
task whose stored id equals the path id, returning the new list and the
updated record, or none when no task matches. -/
def updateTareas (n : Int) (f : Tarea → Tarea) : List Tarea → Option (List Tarea × Tarea)
  | [] => none
  | t :: ts =>
      if t.id = n then some (f t :: ts, f t)
      else
        match updateTareas n f ts with
        | none => none
        | some (ts2, u) => some (t :: ts2, u)

/-- PUT tareas handler body. The path parameter is modelled as the integer it
denotes; the source's loose equality between the stored numeric id and the
decimal path string is numeric equality. -/
def updateTask (doc : Document) (n : Int) (body : TareaUpdateBody) (nowIso : String) :
    Except ApiErr (Document × Tarea) :=
  match updateTareas n (applyTareaUpdate body nowIso) doc.tareas with
  | none => .error (.notFound "Tarea no encontrada")
  | some (ts, u) => .ok ({ doc with tareas := ts }, u)

/-- DELETE tareas handler body: requires an array `ids` (an absent or falsy
value, or a non-array, is rejected); keeps the tasks whose id is not in the
array (`includes` compares without coercion, so only a numeric element equal
to the stored id matches) and reports the count removed. -/
def deleteTasks (doc : Document) (ids : IdsBody) : Except ApiErr (Document × Nat) :=
  match ids with
  | .arr xs =>
      let initialLength := doc.tareas.length
      let tareas2 := doc.tareas.filter (fun t => !(xs.any (fun v => decide (v = JValue.num t.id))))
      .ok ({ doc with tareas := tareas2 }, initialLength - tareas2.length)
  | _ => .error (.badRequest "Se requiere un array \x27ids\x27 en el cuerpo de la solicitud")

/-- POST categorias handler body. -/
def createCategory (doc : Document) (body : CategoriaBody) (now : Int) (nowIso : String) :
    Except ApiErr (Document × Categoria) :=
  if !truthy body.nombre then
    .error (.badRequest "El campo \x27nombre\x27 es requerido")
  else
    let nuevaCategoria : Categoria :=
      { id := now
        nombre := sanitizeInput body.nombre
        color := if truthy body.color then body.color else .str "#555555"
        fechaCreacion := nowIso
        fechaActualizacion := none }
    .ok ({ doc with categorias := doc.categorias ++ [nuevaCategoria] }, nuevaCategoria)

/-- The per-field assignments of the PUT categorias handler. -/
def applyCategoriaUpdate (body : CategoriaBody) (nowIso : String) (c : Categoria) : Categoria :=
  { c with
    nombre := if body.nombre ≠ .undef then sanitizeInput body.nombre else c.nombre
    color := if body.color ≠ .undef then body.color else c.color
    fechaActualizacion := some nowIso }

/-- `findIndex` plus in-place assignment on the categories list. -/
def updateCategorias (n : Int) (f : Categoria → Categoria) :
    List Categoria → Option (List Categoria × Categoria)
  | [] => none
  | c :: cs =>
      if c.id = n then some (f c :: cs, f c)
      else
        match updateCategorias n f cs with
        | none => none
        | some (cs2, u) => some (c :: cs2, u)

/-- PUT categorias handler body. -/
def updateCategory (doc : Document) (n : Int) (body : CategoriaBody) (nowIso : String) :
    Except ApiErr (Document × Categoria) :=
  match updateCategorias n (applyCategoriaUpdate body nowIso) doc.categorias with
  | none => .error (.notFound "Categoría no encontrada")
  | some (cs, u) => .ok ({ doc with categorias := cs }, u)

/-- `findIndex` on id followed by `splice(index, 1)`: removes the first
category whose id equals the path id, returning the shortened list and the
removed record. -/
def removeFirstCategoria (n : Int) : List Categoria → Option (List Categoria × Categoria)
  | [] => none
  | c :: cs =>
      if c.id = n then some (cs, c)
      else
        match removeFirstCategoria n cs with
        | none => none
        | some (cs2, r) => some (c :: cs2, r)

/-- The source's loose equality `t.categoriaId == id` where `id` is the
decimal path string of `n`: a stored number compares numerically, a stored
string must equal the decimal string exactly, a stored boolean is coerced to
zero or one, and null or undefined never equal a string. -/
def eqLooseIdStr (v : JValue) (n : Int) : Bool :=
  match v with
  | .num m => decide (m = n)
  | .str s => decide (s = toString n)
  | .bool b => decide ((if b then (1 : Int) else 0) = n)
  | .null => false
  | .undef => false

/-- DELETE categorias handler body: 404 when no category has the id; then the
referential check (any task whose categoriaId loosely equals the path id
blocks the deletion with a 400 conflict); otherwise splice out the first
match and return it. -/
def deleteCategory (doc : Document) (n : Int) : Except ApiErr (Document × Categoria) :=
  match removeFirstCategoria n doc.categorias with
  | none => .error (.notFound "Categoría no encontrada")
  | some (cs, removed) =>
      if (doc.tareas.filter (fun t => eqLooseIdStr t.categoriaId n)).length > 0 then
        .error (.badRequest "No se puede eliminar la categoría porque hay tareas asociadas")
      else
        .ok ({ doc with categorias := cs }, removed)

/-- The exact header value `validateToken` accepts. -/
def demoToken : String := "Bearer demo-token-123"

/-- One mutating request end to end: the `validateToken` middleware (exact
match of the Authorization header, else 401 and the handler never runs), then
the handler body; an error path returns before `saveData`, so the persisted
file is unchanged; on the success path `saveData` is called, and when the
write throws it catches and only logs, so the response is built from the
in-memory document regardless while the persisted file keeps its old value.
Result: HTTP status, persisted document, response payload. -/
def runMutating {α : Type} (auth : Option String) (writeOk : Bool) (file : Document)
    (op : Document → Except ApiErr (Document × α)) : Nat × Document × Option α :=
  if auth = some demoToken then
    match op file with
    | .error (.badRequest _) => (400, file, none)
    | .error (.notFound _) => (404, file, none)
    | .ok (d, a) => (200, if writeOk then d else file, some a)
  else (401, file, none)

/-- POST tareas as served. -/
def postTareaEndpoint (auth : Option String) (writeOk : Bool) (file : Document)
    (body : TareaBody) (now : Int) (nowIso : String) : Nat × Document × Option Tarea :=
  runMutating auth writeOk file (fun d => createTask d body now nowIso)

/-- PUT tareas as served. -/
def putTareaEndpoint (auth : Option String) (writeOk : Bool) (file : Document)
    (n : Int) (body : TareaUpdateBody) (nowIso : String) : Nat × Document × Option Tarea :=
  runMutating auth writeOk file (fun d => updateTask d n body nowIso)

/-- DELETE tareas as served. -/
def deleteTareasEndpoint (auth : Option String) (writeOk : Bool) (file : Document)
    (ids : IdsBody) : Nat × Document × Option Nat :=
  runMutating auth writeOk file (fun d => deleteTasks d ids)

/-- POST categorias as served. -/
def postCategoriaEndpoint (auth : Option String) (writeOk : Bool) (file : Document)
    (body : CategoriaBody) (now : Int) (nowIso : String) : Nat × Document × Option Categoria :=
  runMutating auth writeOk file (fun d => createCategory d body now nowIso)

/-- PUT categorias as served. -/
def putCategoriaEndpoint (auth : Option String) (writeOk : Bool) (file : Document)
    (n : Int) (body : CategoriaBody) (nowIso : String) : Nat × Document × Option Categoria :=
  runMutating auth writeOk file (fun d => updateCategory d n body nowIso)

/-- DELETE categorias as served. -/
def deleteCategoriaEndpoint (auth : Option String) (writeOk : Bool) (file : Document)
    (n : Int) : Nat × Document × Option Categoria :=
  runMutating auth writeOk file (fun d => deleteCategory d n)

/-- Raw JSON values, for modelling the loader on arbitrary file contents. -/
inductive Json where
  | null
  | bool (b : Bool)
  | num (n : Int)
  | str (s : String)
  | arr (elems : List Json)
  | obj (fields : List (String × Json))

/-- The backing file as the loader sees it: absent (`existsSync` false),
present but failing `JSON.parse` (the catch branch), or parsed to a value. -/
inductive FileContent where
  | absent
  | invalid
  | valid (j : Json)

/-- The three seed categories built inline by `readData` (ids one to three,
creation stamp taken at load time). -/
def seedCategorias (nowIso : String) : List Json :=
  [ .obj [("id", .num 1), ("nombre", .str "Trabajo"), ("color", .str "#007bff"),
          ("fechaCreacion", .str nowIso)],
    .obj [("id", .num 2), ("nombre", .str "Personal"), ("color", .str "#28a745"),
          ("fechaCreacion", .str nowIso)],
    .obj [("id", .num 3), ("nombre", .str "Estudio"), ("color", .str "#dc3545"),
          ("fechaCreacion", .str nowIso)] ]

/-- Source `readData`. A parsed non-empty array is migrated (a JSON-parsed
array never has a `tareas` property, so the source's extra `!parsed.tareas`
conjunct is always true there); any other parsed value is returned as-is; an
absent file yields the seeded fresh document; a parse failure yields the
document with both sequences empty. -/
def readData (fc : FileContent) (nowIso : String) : Json :=
  match fc with
  | .valid (.arr (x :: xs)) =>
      .obj [("tareas", .arr (x :: xs)), ("categorias", .arr (seedCategorias nowIso))]
  | .valid j => j
  | .absent =>
      .obj [("tareas", .arr []), ("categorias", .arr (seedCategorias nowIso))]
  | .invalid =>
      .obj [("tareas", .arr []), ("categorias", .arr [])]

/-- First binding of a key in a JSON object field list. -/
def getField : List (String × Json) → String → Option Json
  | [], _ => none
  | (k, v) :: fs, key => if k = key then some v else getField fs key

/-- The option holds an array value. -/
def isArrField : Option Json → Bool
  | some (.arr _) => true
  | _ => false

/-- The JSON value is an object carrying both a `tareas` and a `categorias`
array. -/
def hasBothSeqs : Json → Bool
  | .obj fs => isArrField (getField fs "tareas") && isArrField (getField fs "categorias")
  | _ => false

/-- Whether the parsed value takes the migration branch. -/
def isNonEmptyArr : Json → Bool
  | .arr (_ :: _) => true
  | _ => false

/-- Serialization of a stored scalar (stored values are never `undef` on the
code's own write paths; `JSON.stringify` would drop such a property, mapped
here to null for totality). -/
def jvalueToJson : JValue → Json
  | .undef => .null
  | .null => .null
  | .bool b => .bool b
  | .num n => .num n
  | .str s => .str s

/-- Serialization of a task record as `JSON.stringify` lays it out. -/
def tareaToJson (t : Tarea) : Json :=
  .obj ([("id", .num t.id), ("titulo", .str t.titulo), ("fecha", jvalueToJson t.fecha),
         ("hora", jvalueToJson t.hora), ("categoriaId", jvalueToJson t.categoriaId),
         ("completada", jvalueToJson t.completada), ("fechaCreacion", .str t.fechaCreacion)] ++
        (match t.fechaActualizacion with
         | none => []
         | some s => [("fechaActualizacion", .str s)]))

/-- Serialization of a category record. -/
def categoriaToJson (c : Categoria) : Json :=
  .obj ([("id", .num c.id), ("nombre", .str c.nombre), ("color", jvalueToJson c.color),
         ("fechaCreacion", .str c.fechaCreacion)] ++
        (match c.fechaActualizacion with
         | none => []
         | some s => [("fechaActualizacion", .str s)]))

/-- Serialization of a typed document, the shape `saveData` writes. -/
def docToJson (d : Document) : Json :=
  .obj [("tareas", .arr (d.tareas.map tareaToJson)),
        ("categorias", .arr (d.categorias.map categoriaToJson))]

/-! ## Lemmas about the sanitizer -/

theorem mem_replaceChar {x c : Char} {rep l : List Char}
    (h : x ∈ replaceChar c rep l) : x ∈ rep ∨ (x ∈ l ∧ x ≠ c) := by
  induction l with
  | nil => simp [replaceChar] at h
  | cons y ys ih =>
      rw [replaceChar] at h
      by_cases hy : y = c
      · rw [if_pos hy] at h
        rcases List.mem_append.mp h with h1 | h2
        · exact Or.inl h1
        · rcases ih h2 with h3 | ⟨h4, h5⟩
          · exact Or.inl h3
          · exact Or.inr ⟨List.mem_cons_of_mem _ h4, h5⟩
      · rw [if_neg hy] at h
        rcases List.mem_cons.mp h with h1 | h2
        · exact Or.inr ⟨h1 ▸ List.mem_cons_self _ _, h1 ▸ hy⟩
        · rcases ih h2 with h3 | ⟨h4, h5⟩
          · exact Or.inl h3
          · exact Or.inr ⟨List.mem_cons_of_mem _ h4, h5⟩

theorem not_mem_replaceChar_self {c : Char} {rep l : List Char}
    (hrep : c ∉ rep) : c ∉ replaceChar c rep l := by
  intro h
  rcases mem_replaceChar h with h1 | ⟨_, h2⟩
  · exact hrep h1
  · exact h2 rfl

theorem not_mem_replaceChar {x c : Char} {rep l : List Char}
    (hrep : x ∉ rep) (hl : x ∉ l) : x ∉ replaceChar c rep l := by
  intro h
  rcases mem_replaceChar h with h1 | ⟨h2, _⟩
  · exact hrep h1
  · exact hl h2

theorem not_mem_trimChars {x : Char} {l : List Char} (h : x ∉ l) : x ∉ trimChars l := by
  intro hmem
  apply h
  unfold trimChars at hmem
  rw [List.mem_reverse] at hmem
  have h1 := (List.dropWhile_sublist (l := (l.dropWhile isJsWhitespace).reverse)
    (p := isJsWhitespace)).subset hmem
  rw [List.mem_reverse] at h1
  exact (List.dropWhile_sublist (p := isJsWhitespace)).subset h1

theorem sanitizeStr_noSpecials (s : String) : noSpecials (sanitizeStr s) := by
  have hdata : (sanitizeStr s).data = trimChars
      (replaceChar '/' "&#x2F;".data
        (replaceChar aposChar "&#x27;".data
          (replaceChar quoteChar "&quot;".data
            (replaceChar '>' "&gt;".data
              (replaceChar '<' "&lt;".data s.data))))) := rfl
  refine ⟨?_, ?_, ?_, ?_, ?_⟩ <;> rw [hdata]
  · exact not_mem_trimChars (not_mem_replaceChar (by decide)
      (not_mem_replaceChar (by decide) (not_mem_replaceChar (by decide)
        (not_mem_replaceChar (by decide) (not_mem_replaceChar_self (by decide))))))
  · exact not_mem_trimChars (not_mem_replaceChar (by decide)
      (not_mem_replaceChar (by decide) (not_mem_replaceChar (by decide)
        (not_mem_replaceChar_self (by decide)))))
  · exact not_mem_trimChars (not_mem_replaceChar (by decide)
      (not_mem_replaceChar (by decide) (not_mem_replaceChar_self (by decide))))
  · exact not_mem_trimChars (not_mem_replaceChar (by decide)
      (not_mem_replaceChar_self (by decide)))
  · exact not_mem_trimChars (not_mem_replaceChar_self (by decide))

theorem sanitizeInput_noSpecials (v : JValue) : noSpecials (sanitizeInput v) := by
  cases v with
  | str s => exact sanitizeStr_noSpecials s
  | undef => decide
  | null => decide
  | bool b => cases b <;> decide
  | num n => simp only [sanitizeInput]; decide

/-! ## Lemmas about the operations -/

theorem createTask_ok_titulo {doc : Document} {body : TareaBody} {now : Int}
    {nowIso : String} {d : Document} {t : Tarea}
    (h : createTask doc body now nowIso = .ok (d, t)) :
    t.titulo = sanitizeInput body.titulo := by
  unfold createTask at h
  split at h
  · exact absurd h (by simp)
  · split at h
    · exact absurd h (by simp)
    · split at h
      · exact absurd h (by simp)
      · simp only [Except.ok.injEq, Prod.mk.injEq] at h
        rw [← h.2]

theorem updateTareas_some {n : Int} {f : Tarea → Tarea} {l ts : List Tarea} {u : Tarea}
    (h : updateTareas n f l = some (ts, u)) : ∃ t0, t0 ∈ l ∧ u = f t0 := by
  induction l generalizing ts with
  | nil => simp [updateTareas] at h
  | cons t rest ih =>
      rw [updateTareas] at h
      split at h
      · simp only [Option.some.injEq, Prod.mk.injEq] at h
        exact ⟨t, List.mem_cons_self _ _, h.2.symm⟩
      · split at h
        · exact absurd h (by simp)
        next ts2 u2 heq =>
          simp only [Option.some.injEq, Prod.mk.injEq] at h
          rw [h.2] at heq
          obtain ⟨t0, ht0, hu⟩ := ih heq
          exact ⟨t0, List.mem_cons_of_mem _ ht0, hu⟩

theorem updateCategorias_some {n : Int} {f : Categoria → Categoria}
    {l cs : List Categoria} {u : Categoria}
    (h : updateCategorias n f l = some (cs, u)) : ∃ c0, c0 ∈ l ∧ u = f c0 := by
  induction l generalizing cs with
  | nil => simp [updateCategorias] at h
  | cons c rest ih =>
      rw [updateCategorias] at h
      split at h
      · simp only [Option.some.injEq, Prod.mk.injEq] at h
        exact ⟨c, List.mem_cons_self _ _, h.2.symm⟩
      · split at h
        · exact absurd h (by simp)
        next cs2 u2 heq =>
          simp only [Option.some.injEq, Prod.mk.injEq] at h
          rw [h.2] at heq
          obtain ⟨c0, hc0, hu⟩ := ih heq
          exact ⟨c0, List.mem_cons_of_mem _ hc0, hu⟩

theorem createCategory_ok_nombre {doc : Document} {body : CategoriaBody} {now : Int}
    {nowIso : String} {d : Document} {c : Categoria}
    (h : createCategory doc body now nowIso = .ok (d, c)) :
    c.nombre = sanitizeInput body.nombre := by
  unfold createCategory at h
  split at h
  · exact absurd h (by simp)
  · simp only [Except.ok.injEq, Prod.mk.injEq] at h
    rw [← h.2]

/-- C2: for every string input, the output of sanitizeInput contains none of
the literal characters angle brackets, double quote, apostrophe, slash; and
every title or name stored by createTask, updateTask, createCategory and
updateCategory (the four writers of text fields) contains none of those
characters. -/
theorem sanitize_contract
    (s : String) (v : JValue) (doc doc2 doc3 doc4 : Document)
    (body : TareaBody) (ubody : TareaUpdateBody) (cbody cubody : CategoriaBody)
    (n cid now now2 : Int) (iso iso2 iso3 iso4 : String) :
    noSpecials (sanitizeStr s) ∧
    noSpecials (sanitizeInput v) ∧
    (∀ d t, createTask doc body now iso = .ok (d, t) → noSpecials t.titulo) ∧
    (∀ d t, updateTask doc2 n ubody iso2 = .ok (d, t) → ubody.titulo ≠ .undef →
      noSpecials t.titulo) ∧
    (∀ d c, createCategory doc3 cbody now2 iso3 = .ok (d, c) → noSpecials c.nombre) ∧
    (∀ d c, updateCategory doc4 cid cubody iso4 = .ok (d, c) → cubody.nombre ≠ .undef →
      noSpecials c.nombre) := by
  refine ⟨sanitizeStr_noSpecials s, sanitizeInput_noSpecials v, ?_, ?_, ?_, ?_⟩
  · intro d t h
    rw [createTask_ok_titulo h]
    exact sanitizeInput_noSpecials _
  · intro d t h htit
    unfold updateTask at h
    split at h
    · exact absurd h (by simp)
    next ts u heq =>
      simp only [Except.ok.injEq, Prod.mk.injEq] at h
      obtain ⟨t0, _, hu⟩ := updateTareas_some heq
      rw [← h.2, hu]
      simp only [applyTareaUpdate, if_pos htit]
      exact sanitizeInput_noSpecials _
  · intro d c h
    rw [createCategory_ok_nombre h]
    exact sanitizeInput_noSpecials _
  · intro d c h hnom
    unfold updateCategory at h
    split at h
    · exact absurd h (by simp)
    next cs u heq =>
      simp only [Except.ok.injEq, Prod.mk.injEq] at h
      obtain ⟨c0, _, hu⟩ := updateCategorias_some heq
      rw [← h.2, hu]
      simp only [applyCategoriaUpdate, if_pos hnom]
      exact sanitizeInput_noSpecials _

/-- Witness for C2 at concrete inputs: a created task with title a<b, an
updated task with title q<r, a created category named n<m and an updated
category named p>q, all stored entity-escaped. -/
theorem sanitize_contract_witness :
    noSpecials "a&lt;b" ∧ noSpecials "q&lt;r" ∧ noSpecials "n&lt;m" ∧ noSpecials "p&gt;q" := by
  have h := sanitize_contract "x" (.str "y")
    emptyDoc ⟨[⟨1, "x", .null, .null, .null, .null, "c", none⟩], []⟩
    emptyDoc ⟨[], [⟨2, "o", .null, "c2", none⟩]⟩
    ⟨.str "a<b", .str "2024-12-01", .str "14:30", .null⟩
    ⟨.str "q<r", .undef, .undef, .undef, .undef⟩
    ⟨.str "n<m", .undef⟩ ⟨.str "p>q", .undef⟩
    1 2 7 9 "z" "w" "i3" "w2"
  refine ⟨?_, ?_, ?_, ?_⟩
  · exact h.2.2.1 ⟨[⟨7, "a&lt;b", .str "2024-12-01", .str "14:30", .null, .bool false, "z",
      none⟩], []⟩
      ⟨7, "a&lt;b", .str "2024-12-01", .str "14:30", .null, .bool false, "z", none⟩
      rfl
  · exact h.2.2.2.1 ⟨[⟨1, "q&lt;r", .null, .null, .null, .null, "c", some "w"⟩], []⟩
      ⟨1, "q&lt;r", .null, .null, .null, .null, "c", some "w"⟩ rfl (by decide)
  · exact h.2.2.2.2.1 ⟨[], [⟨9, "n&lt;m", .str "#555555", "i3", none⟩]⟩
      ⟨9, "n&lt;m", .str "#555555", "i3", none⟩ rfl
  · exact h.2.2.2.2.2 ⟨[], [⟨2, "p&gt;q", .null, "c2", some "w2"⟩]⟩
      ⟨2, "p&gt;q", .null, "c2", some "w2"⟩ rfl (by decide)

theorem removeFirstCategoria_append (n : Int) (pre : List Categoria) (c : Categoria)
    (post : List Categoria) (hc : c.id = n) (hpre : ∀ x ∈ pre, x.id ≠ n) :
    removeFirstCategoria n (pre ++ c :: post) = some (pre ++ post, c) := by
  induction pre with
  | nil => simp [removeFirstCategoria, hc]
  | cons x xs ih =>
      rw [List.cons_append, removeFirstCategoria,
        if_neg (hpre x (List.mem_cons_self _ _)),
        ih (fun y hy => hpre y (List.mem_cons_of_mem _ hy))]
      rfl

theorem exists_first_with_id (n : Int) (l : List Categoria)
    (h : ∃ c ∈ l, c.id = n) :
    ∃ pre c post, l = pre ++ c :: post ∧ c.id = n ∧ ∀ x ∈ pre, x.id ≠ n := by
  induction l with
  | nil => simp at h
  | cons y ys ih =>
      by_cases hy : y.id = n
      · exact ⟨[], y, ys, rfl, hy, by simp⟩
      · have h2 : ∃ c ∈ ys, c.id = n := by
          obtain ⟨c, hc, hcn⟩ := h
          rcases List.mem_cons.mp hc with h3 | h3
          · exact absurd (h3 ▸ hcn) hy
          · exact ⟨c, h3, hcn⟩
        obtain ⟨pre, c, post, hsplit, hcn, hpre⟩ := ih h2
        refine ⟨y :: pre, c, post, by rw [hsplit, List.cons_append], hcn, ?_⟩
        intro x hx
        rcases List.mem_cons.mp hx with h3 | h3
        · exact h3 ▸ hy
        · exact hpre x h3

theorem filter_length_pos {α : Type} (p : α → Bool) {l : List α} {x : α}
    (hx : x ∈ l) (hpx : p x = true) : 0 < (l.filter p).length := by
  induction l with
  | nil => simp at hx
  | cons y ys ih =>
      rcases List.mem_cons.mp hx with h1 | h1
      · subst h1
        simp [List.filter, hpx]
      · by_cases hy : p y = true
        · simp [List.filter, hy]
        · simp only [List.filter, Bool.not_eq_true] at hy ⊢
          rw [hy]
          exact ih h1

theorem filter_nil_of_all_false {α : Type} (p : α → Bool) {l : List α}
    (h : ∀ x ∈ l, p x = false) : l.filter p = [] := by
  induction l with
  | nil => rfl
  | cons y ys ih =>
      simp only [List.filter, h y (List.mem_cons_self _ _)]
      exact ih (fun x hx => h x (List.mem_cons_of_mem _ hx))

/-- C1: when a category with the requested id exists and some task references
it (under the source's loose comparison against the path id), DELETE
categorias answers 400 and the persisted document is unchanged; when no task
references it, the call removes exactly the first category with that id,
persists, and returns the removed record. -/
theorem deleteCategory_referential (doc : Document) (cid : Int) (writeOk : Bool) :
    ((∃ c ∈ doc.categorias, c.id = cid) →
      (∃ t ∈ doc.tareas, eqLooseIdStr t.categoriaId cid = true) →
      deleteCategoriaEndpoint (some demoToken) writeOk doc cid = (400, doc, none)) ∧
    ((∃ c ∈ doc.categorias, c.id = cid) →
      (∀ t ∈ doc.tareas, eqLooseIdStr t.categoriaId cid = false) →
      ∃ pre c post, doc.categorias = pre ++ c :: post ∧ c.id = cid ∧
        (∀ x ∈ pre, x.id ≠ cid) ∧
        deleteCategoriaEndpoint (some demoToken) true doc cid =
          (200, { doc with categorias := pre ++ post }, some c)) := by
  constructor
  · intro hcat htask
    obtain ⟨pre, c, post, hsplit, hcid, hpre⟩ := exists_first_with_id cid doc.categorias hcat
    have hrm : removeFirstCategoria cid doc.categorias = some (pre ++ post, c) := by
      rw [hsplit]
      exact removeFirstCategoria_append cid pre c post hcid hpre
    obtain ⟨t, ht, hpt⟩ := htask
    have hlen : 0 < (doc.tareas.filter (fun t => eqLooseIdStr t.categoriaId cid)).length :=
      filter_length_pos _ ht hpt
    have herr : deleteCategory doc cid =
        .error (.badRequest "No se puede eliminar la categoría porque hay tareas asociadas") := by
      simp only [deleteCategory, hrm]
      rw [if_pos hlen]
    simp [deleteCategoriaEndpoint, runMutating, herr]
  · intro hcat htask
    obtain ⟨pre, c, post, hsplit, hcid, hpre⟩ := exists_first_with_id cid doc.categorias hcat
    have hrm : removeFirstCategoria cid doc.categorias = some (pre ++ post, c) := by
      rw [hsplit]
      exact removeFirstCategoria_append cid pre c post hcid hpre
    have hfil : doc.tareas.filter (fun t => eqLooseIdStr t.categoriaId cid) = [] :=
      filter_nil_of_all_false _ htask
    have hok : deleteCategory doc cid = .ok ({ doc with categorias := pre ++ post }, c) := by
      simp only [deleteCategory, hrm, hfil]
      rw [if_neg (by simp)]
    refine ⟨pre, c, post, hsplit, hcid, hpre, ?_⟩
    simp [deleteCategoriaEndpoint, runMutating, hok]

/-- Witness for C1: with one category (id one) and one task referencing it the
delete answers 400 leaving the document intact; with the task not referencing
any category the same delete removes the category and returns it. -/
theorem deleteCategory_referential_witness :
    deleteCategoriaEndpoint (some demoToken) true
        ⟨[⟨10, "t", .null, .null, .num 1, .bool false, "c", none⟩],
         [⟨1, "Trabajo", .null, "c", none⟩]⟩ 1 =
      (400, ⟨[⟨10, "t", .null, .null, .num 1, .bool false, "c", none⟩],
             [⟨1, "Trabajo", .null, "c", none⟩]⟩, none) ∧
    deleteCategoriaEndpoint (some demoToken) true
        ⟨[⟨10, "t", .null, .null, .null, .bool false, "c", none⟩],
         [⟨1, "Trabajo", .null, "c", none⟩]⟩ 1 =
      (200, ⟨[⟨10, "t", .null, .null, .null, .bool false, "c", none⟩], []⟩,
       some ⟨1, "Trabajo", .null, "c", none⟩) := by
  constructor
  · exact (deleteCategory_referential
      ⟨[⟨10, "t", .null, .null, .num 1, .bool false, "c", none⟩],
       [⟨1, "Trabajo", .null, "c", none⟩]⟩ 1 true).1 (by decide) (by decide)
  · obtain ⟨pre, c, post, hsplit, hcid, hpre, hend⟩ := (deleteCategory_referential
      ⟨[⟨10, "t", .null, .null, .null, .bool false, "c", none⟩],
       [⟨1, "Trabajo", .null, "c", none⟩]⟩ 1 true).2 (by decide) (by decide)
    cases pre with
    | cons x xs => simp at hsplit
    | nil =>
        simp at hsplit
        obtain ⟨h1, h2⟩ := hsplit
        subst h2
        subst h1
        simpa using hend

/-- C3 counterexample: POST tareas with date month thirteen is accepted: the
response is 200 and the task is stored, because the source regex only checks
the digit shape. The claim says this request fails with 400. -/
theorem createTask_accepts_month_13 :
    postTareaEndpoint (some demoToken) true emptyDoc
        ⟨.str "Examen", .str "2024-13-01", .str "14:30", .null⟩ 5 "i0" =
      (200,
       ⟨[⟨5, "Examen", .str "2024-13-01", .str "14:30", .null, .bool false, "i0", none⟩], []⟩,
       some ⟨5, "Examen", .str "2024-13-01", .str "14:30", .null, .bool false, "i0", none⟩) ∧
    (200 : Nat) ≠ 400 := ⟨rfl, by decide⟩

/-- C3 amended: the date validation of POST tareas tests the digit shape
only, so month thirteen succeeds exactly like December; only a date not
matching four digits, hyphen, two digits, hyphen, two digits fails with the
400 format error. -/
theorem fecha_shape_only (doc : Document) (now : Int) (iso : String) :
    createTask doc ⟨.str "Examen", .str "2024-13-01", .str "14:30", .null⟩ now iso =
      .ok ({ doc with tareas := doc.tareas ++
        [⟨now, "Examen", .str "2024-13-01", .str "14:30", .null, .bool false, iso, none⟩] },
        ⟨now, "Examen", .str "2024-13-01", .str "14:30", .null, .bool false, iso, none⟩) ∧
    createTask doc ⟨.str "Examen", .str "2024-12-01", .str "14:30", .null⟩ now iso =
      .ok ({ doc with tareas := doc.tareas ++
        [⟨now, "Examen", .str "2024-12-01", .str "14:30", .null, .bool false, iso, none⟩] },
        ⟨now, "Examen", .str "2024-12-01", .str "14:30", .null, .bool false, iso, none⟩) ∧
    createTask doc ⟨.str "Examen", .str "2024-1-01", .str "14:30", .null⟩ now iso =
      .error (.badRequest "Formato de fecha inválido. Use YYYY-MM-DD") ∧
    fechaRegexTest "2024-13-01" = true ∧
    fechaRegexTest "2024-12-01" = true ∧
    fechaRegexTest "2024-1-01" = false :=
  ⟨rfl, rfl, rfl, rfl, rfl, rfl⟩

/-- C4 counterexample: a file parsing to the empty JSON object is returned
as-is by readData, carrying neither a tareas nor a categorias sequence. The
claim says every readData result has both. -/
theorem readData_object_lacks_seqs :
    readData (.valid (.obj [])) "2024-01-01T00:00:00.000Z" = .obj [] ∧
    hasBothSeqs (readData (.valid (.obj [])) "2024-01-01T00:00:00.000Z") = false :=
  ⟨rfl, rfl⟩

/-- C4 amended: readData yields a document with both sequences when the file
is absent, unparseable, or a non-empty bare array; any other parsed value is
returned as-is, so the invariant then holds only if the file content already
has both sequences; every typed document (the shape all operations produce
and saveData writes) serializes with both sequences present. -/
theorem readData_seqs_amended (iso : String) (j x : Json) (xs : List Json)
    (d : Document) :
    hasBothSeqs (readData .absent iso) = true ∧
    hasBothSeqs (readData .invalid iso) = true ∧
    hasBothSeqs (readData (.valid (.arr (x :: xs))) iso) = true ∧
    (isNonEmptyArr j = false → readData (.valid j) iso = j) ∧
    hasBothSeqs (docToJson d) = true := by
  refine ⟨rfl, rfl, rfl, ?_, rfl⟩
  intro h
  cases j with
  | arr elems =>
      cases elems with
      | nil => rfl
      | cons a l => simp [isNonEmptyArr] at h
  | null => rfl
  | bool b => rfl
  | num n => rfl
  | str s => rfl
  | obj fs => rfl

/-- Witness for C4 amended at concrete inputs: the empty JSON object is
passed through unchanged, and an absent file yields both sequences. -/
theorem readData_seqs_amended_witness :
    readData (.valid (.obj [])) "w" = .obj [] ∧
    hasBothSeqs (readData .absent "w") = true := by
  have h := readData_seqs_amended "w" (.obj []) (.obj []) [] emptyDoc
  exact ⟨h.2.2.2.1 rfl, h.1⟩

/-- C5 counterexample: POST tareas whose storage write fails still answers
200 with the created record in the body, while the persisted document stays
the old one; the status is not 500. The claim says a failed save yields a
500 internal error. -/
theorem save_failure_reports_success :
    postTareaEndpoint (some demoToken) false emptyDoc
        ⟨.str "Tarea", .str "2024-12-01", .str "14:30", .null⟩ 3 "t0" =
      (200, emptyDoc,
       some ⟨3, "Tarea", .str "2024-12-01", .str "14:30", .null, .bool false, "t0", none⟩) ∧
    (200 : Nat) ≠ 500 := ⟨rfl, by decide⟩

/-- C5 amended: saveData catches and only logs a failed write, so for every
mutating operation the response status is the same as with a successful
write (success is still reported) and the persisted document is unchanged;
no 500 is produced. -/
theorem save_failure_silent {α : Type} (auth : Option String) (file : Document)
    (op : Document → Except ApiErr (Document × α)) (body : TareaBody)
    (n cid now : Int) (ubody : TareaUpdateBody) (ids : IdsBody)
    (cbody cubody : CategoriaBody) (iso : String) :
    (runMutating auth false file op).2.1 = file ∧
    (runMutating auth false file op).1 = (runMutating auth true file op).1 ∧
    (postTareaEndpoint auth false file body now iso).2.1 = file ∧
    (putTareaEndpoint auth false file n ubody iso).2.1 = file ∧
    (deleteTareasEndpoint auth false file ids).2.1 = file ∧
    (postCategoriaEndpoint auth false file cbody now iso).2.1 = file ∧
    (putCategoriaEndpoint auth false file cid cubody iso).2.1 = file ∧
    (deleteCategoriaEndpoint auth false file cid).2.1 = file := by
  have h1 : ∀ {β : Type} (op2 : Document → Except ApiErr (Document × β)),
      (runMutating auth false file op2).2.1 = file ∧
      (runMutating auth false file op2).1 = (runMutating auth true file op2).1 := by
    intro β op2
    by_cases ha : auth = some demoToken
    · rcases hop : op2 file with e | p
      · cases e <;> simp [runMutating, if_pos ha, hop]
      · obtain ⟨d, a⟩ := p
        simp [runMutating, if_pos ha, hop]
    · simp [runMutating, if_neg ha]
  exact ⟨(h1 op).1, (h1 op).2, (h1 _).1, (h1 _).1, (h1 _).1, (h1 _).1, (h1 _).1, (h1 _).1⟩

/-- C6: every mutating endpoint called with an Authorization header other
than the exact bearer string answers 401 and the persisted document is
unchanged: no record is created, altered or removed. -/
theorem auth_required (auth : Option String) (h : auth ≠ some demoToken)
    (writeOk : Bool) (file : Document) (body : TareaBody) (n cid now : Int)
    (ubody : TareaUpdateBody) (ids : IdsBody) (cbody cubody : CategoriaBody)
    (iso : String) :
    postTareaEndpoint auth writeOk file body now iso = (401, file, none) ∧
    putTareaEndpoint auth writeOk file n ubody iso = (401, file, none) ∧
    deleteTareasEndpoint auth writeOk file ids = (401, file, none) ∧
    postCategoriaEndpoint auth writeOk file cbody now iso = (401, file, none) ∧
    putCategoriaEndpoint auth writeOk file cid cubody iso = (401, file, none) ∧
    deleteCategoriaEndpoint auth writeOk file cid = (401, file, none) := by
  refine ⟨?_, ?_, ?_, ?_, ?_, ?_⟩ <;>
    simp [postTareaEndpoint, putTareaEndpoint, deleteTareasEndpoint,
      postCategoriaEndpoint, putCategoriaEndpoint, deleteCategoriaEndpoint,
      runMutating, if_neg h]

/-- Witness for C6: with no Authorization header every mutating endpoint on a
one-task document answers 401 and leaves it unchanged. -/
theorem auth_required_witness :
    postTareaEndpoint none true ⟨[], []⟩
        ⟨.str "a", .str "2024-12-01", .str "14:30", .null⟩ 1 "i" = (401, ⟨[], []⟩, none) ∧
    putTareaEndpoint none true ⟨[], []⟩ 1 ⟨.str "a", .undef, .undef, .undef, .undef⟩ "i" =
      (401, ⟨[], []⟩, none) ∧
    deleteTareasEndpoint none true ⟨[], []⟩ (.arr [.num 1]) = (401, ⟨[], []⟩, none) ∧
    postCategoriaEndpoint none true ⟨[], []⟩ ⟨.str "n", .undef⟩ 1 "i" = (401, ⟨[], []⟩, none) ∧
    putCategoriaEndpoint none true ⟨[], []⟩ 1 ⟨.str "n", .undef⟩ "i" = (401, ⟨[], []⟩, none) ∧
    deleteCategoriaEndpoint none true ⟨[], []⟩ 1 = (401, ⟨[], []⟩, none) :=
  auth_required none (by simp) true ⟨[], []⟩
    ⟨.str "a", .str "2024-12-01", .str "14:30", .null⟩ 1 1 1
    ⟨.str "a", .undef, .undef, .undef, .undef⟩ (.arr [.num 1])
    ⟨.str "n", .undef⟩ ⟨.str "n", .undef⟩ "i"

/-- C7: loading a backing file that parses to a non-empty bare array migrates
it: the result carries exactly that array under tareas and the three default
seed categories under categorias. -/
theorem readData_migrates_bare_array (x : Json) (xs : List Json) (iso : String) :
    readData (.valid (.arr (x :: xs))) iso =
      .obj [("tareas", .arr (x :: xs)), ("categorias", .arr (seedCategorias iso))] ∧
    (seedCategorias iso).length = 3 := ⟨rfl, rfl⟩

theorem updateTareas_append (n : Int) (f : Tarea → Tarea) (pre : List Tarea)
    (t : Tarea) (post : List Tarea) (ht : t.id = n) (hpre : ∀ x ∈ pre, x.id ≠ n) :
    updateTareas n f (pre ++ t :: post) = some (pre ++ f t :: post, f t) := by
  induction pre with
  | nil => simp [updateTareas, ht]
  | cons x xs ih =>
      rw [List.cons_append, updateTareas, if_neg (hpre x (List.mem_cons_self _ _)),
        ih (fun y hy => hpre y (List.mem_cons_of_mem _ hy))]
      rfl

/-- C8: updating an existing task rewrites exactly the first task carrying
the path id: each field present in the body is applied (title sanitized, the
others verbatim, with no date or time re-validation by construction of the
operation), each absent field is kept, the update stamp is set; the tasks
before and after it and the whole categories sequence are untouched. -/
theorem updateTask_frame (doc : Document) (n : Int) (body : TareaUpdateBody)
    (iso : String) (pre : List Tarea) (t : Tarea) (post : List Tarea)
    (hsplit : doc.tareas = pre ++ t :: post) (hid : t.id = n)
    (hpre : ∀ x ∈ pre, x.id ≠ n) :
    updateTask doc n body iso =
      .ok ({ doc with tareas := pre ++ applyTareaUpdate body iso t :: post },
        applyTareaUpdate body iso t) ∧
    ({ doc with tareas := pre ++ applyTareaUpdate body iso t :: post }).categorias
      = doc.categorias ∧
    (applyTareaUpdate body iso t).id = t.id ∧
    (applyTareaUpdate body iso t).fechaCreacion = t.fechaCreacion ∧
    (body.titulo = .undef → (applyTareaUpdate body iso t).titulo = t.titulo) ∧
    (body.titulo ≠ .undef →
      (applyTareaUpdate body iso t).titulo = sanitizeInput body.titulo) ∧
    (body.fecha = .undef → (applyTareaUpdate body iso t).fecha = t.fecha) ∧
    (body.fecha ≠ .undef → (applyTareaUpdate body iso t).fecha = body.fecha) ∧
    (body.hora = .undef → (applyTareaUpdate body iso t).hora = t.hora) ∧
    (body.hora ≠ .undef → (applyTareaUpdate body iso t).hora = body.hora) ∧
    (body.completada = .undef →
      (applyTareaUpdate body iso t).completada = t.completada) ∧
    (body.completada ≠ .undef →
      (applyTareaUpdate body iso t).completada = body.completada) ∧
    (body.categoriaId = .undef →
      (applyTareaUpdate body iso t).categoriaId = t.categoriaId) ∧
    (body.categoriaId ≠ .undef →
      (applyTareaUpdate body iso t).categoriaId = body.categoriaId) ∧
    (applyTareaUpdate body iso t).fechaActualizacion = some iso := by
  refine ⟨?_, rfl, rfl, rfl, ?_, ?_, ?_, ?_, ?_, ?_, ?_, ?_, ?_, ?_, rfl⟩
  · simp only [updateTask, hsplit,
      updateTareas_append n (applyTareaUpdate body iso) pre t post hid hpre]
  all_goals intro h
  all_goals simp [applyTareaUpdate, h]

/-- Witness for C8: a two-task document, updating the second task's title and
completed flag only. -/
theorem updateTask_frame_witness :
    updateTask ⟨[⟨1, "uno", .str "2024-01-01", .str "09:00", .null, .bool false, "c1", none⟩,
                 ⟨2, "dos", .str "2024-02-02", .str "10:00", .num 1, .bool false, "c2", none⟩],
                [⟨1, "Trabajo", .null, "c0", none⟩]⟩ 2
        ⟨.str "nuevo", .undef, .undef, .bool true, .undef⟩ "u1" =
      .ok (⟨[⟨1, "uno", .str "2024-01-01", .str "09:00", .null, .bool false, "c1", none⟩,
             ⟨2, "nuevo", .str "2024-02-02", .str "10:00", .num 1, .bool true, "c2", some "u1"⟩],
            [⟨1, "Trabajo", .null, "c0", none⟩]⟩,
        ⟨2, "nuevo", .str "2024-02-02", .str "10:00", .num 1, .bool true, "c2", some "u1"⟩) :=
  (updateTask_frame
    ⟨[⟨1, "uno", .str "2024-01-01", .str "09:00", .null, .bool false, "c1", none⟩,
      ⟨2, "dos", .str "2024-02-02", .str "10:00", .num 1, .bool false, "c2", none⟩],
     [⟨1, "Trabajo", .null, "c0", none⟩]⟩ 2
    ⟨.str "nuevo", .undef, .undef, .bool true, .undef⟩ "u1"
    [⟨1, "uno", .str "2024-01-01", .str "09:00", .null, .bool false, "c1", none⟩]
    ⟨2, "dos", .str "2024-02-02", .str "10:00", .num 1, .bool false, "c2", none⟩
    [] rfl rfl (by decide)).1

theorem filter_filter_self {α : Type} (p : α → Bool) (l : List α) :
    (l.filter p).filter p = l.filter p := by
  induction l with
  | nil => rfl
  | cons y ys ih =>
      by_cases hy : p y = true
      · simp [List.filter, hy, ih]
      · simp only [List.filter, Bool.not_eq_true] at hy ⊢
        rw [hy]
        exact ih

theorem length_filter_split {α : Type} (p : α → Bool) (l : List α) :
    l.length = (l.filter p).length + (l.filter (fun a => !(p a))).length := by
  induction l with
  | nil => rfl
  | cons y ys ih =>
      cases hy : p y <;> simp [List.filter, hy, List.length_cons, ih] <;> omega

/-- C9: DELETE tareas removes exactly the tasks whose id appears in ids (the
strict includes: only a numeric array element equal to the stored id counts)
and reports that number as deletedCount; repeating the call with the same ids
succeeds with deletedCount zero and the document is the same as after the
first call. -/
theorem deleteTasks_exact_idempotent (doc : Document) (xs : List JValue) :
    deleteTasks doc (.arr xs) =
      .ok ({ doc with tareas :=
          doc.tareas.filter (fun t => !(xs.any (fun v => decide (v = JValue.num t.id)))) },
        (doc.tareas.filter (fun t => xs.any (fun v => decide (v = JValue.num t.id)))).length) ∧
    deleteTasks
      ({ doc with tareas :=
          doc.tareas.filter (fun t => !(xs.any (fun v => decide (v = JValue.num t.id)))) })
      (.arr xs) =
      .ok ({ doc with tareas :=
          doc.tareas.filter (fun t => !(xs.any (fun v => decide (v = JValue.num t.id)))) },
        0) := by
  have hcount : doc.tareas.length -
      (doc.tareas.filter (fun t => !(xs.any (fun v => decide (v = JValue.num t.id))))).length =
      (doc.tareas.filter (fun t => xs.any (fun v => decide (v = JValue.num t.id)))).length := by
    have hl := length_filter_split (fun t => xs.any (fun v => decide (v = JValue.num t.id)))
      doc.tareas
    omega
  constructor
  · simp only [deleteTasks, hcount]
  · simp only [deleteTasks,
      filter_filter_self (fun t => !(xs.any (fun v => decide (v = JValue.num t.id))))
        doc.tareas,
      Nat.sub_self]

/-- C10: createTask stores categoriaId null for every falsy body value (null,
zero, empty string, false, absent) and a truthy value verbatim; the document
is arbitrary, so no check that a category with that id exists is involved. -/
theorem createTask_categoriaId (doc : Document) (v : JValue) (now : Int) (iso : String) :
    (truthy v = false →
      createTask doc ⟨.str "Tarea", .str "2024-12-01", .str "14:30", v⟩ now iso =
        .ok ({ doc with tareas := doc.tareas ++
            [⟨now, "Tarea", .str "2024-12-01", .str "14:30", .null, .bool false, iso, none⟩] },
          ⟨now, "Tarea", .str "2024-12-01", .str "14:30", .null, .bool false, iso, none⟩)) ∧
    (truthy v = true →
      createTask doc ⟨.str "Tarea", .str "2024-12-01", .str "14:30", v⟩ now iso =
        .ok ({ doc with tareas := doc.tareas ++
            [⟨now, "Tarea", .str "2024-12-01", .str "14:30", v, .bool false, iso, none⟩] },
          ⟨now, "Tarea", .str "2024-12-01", .str "14:30", v, .bool false, iso, none⟩)) ∧
    truthy .null = false ∧ truthy (.num 0) = false ∧ truthy (.str "") = false ∧
    truthy (.bool false) = false ∧ truthy .undef = false := by
  have hred : createTask doc ⟨.str "Tarea", .str "2024-12-01", .str "14:30", v⟩ now iso =
      .ok ({ doc with tareas := doc.tareas ++
          [⟨now, "Tarea", .str "2024-12-01", .str "14:30",
            (if truthy v then v else .null), .bool false, iso, none⟩] },
        ⟨now, "Tarea", .str "2024-12-01", .str "14:30",
          (if truthy v then v else .null), .bool false, iso, none⟩) := rfl
  refine ⟨?_, ?_, rfl, rfl, rfl, rfl, rfl⟩
  · intro h
    rw [hred]
    simp [h]
  · intro h
    rw [hred]
    simp [h]

/-- Witness for C10: with no categories at all, a zero categoriaId is stored
as null and the unknown id nine-nine-nine is stored verbatim. -/
theorem createTask_categoriaId_witness :
    createTask emptyDoc ⟨.str "Tarea", .str "2024-12-01", .str "14:30", .num 0⟩ 1 "c" =
      .ok (⟨[⟨1, "Tarea", .str "2024-12-01", .str "14:30", .null, .bool false, "c", none⟩], []⟩,
        ⟨1, "Tarea", .str "2024-12-01", .str "14:30", .null, .bool false, "c", none⟩) ∧
    createTask emptyDoc ⟨.str "Tarea", .str "2024-12-01", .str "14:30", .num 999⟩ 2 "c" =
      .ok (⟨[⟨2, "Tarea", .str "2024-12-01", .str "14:30", .num 999, .bool false, "c", none⟩], []⟩,
        ⟨2, "Tarea", .str "2024-12-01", .str "14:30", .num 999, .bool false, "c", none⟩) :=
  ⟨(createTask_categoriaId emptyDoc (.num 0) 1 "c").1 (by decide),
   (createTask_categoriaId emptyDoc (.num 999) 2 "c").2.1 (by decide)⟩
